import Mathlib

/-!
Verification of the noun-mixer core (src/app.py) against its specification.
The Python source is shallowly embedded: pure functions become Lean functions,
the Morfeusz oracle becomes an explicit record of (possibly failing) functions,
Python exceptions become `Except Unit`, the seeded pseudo-random generator
becomes an explicit state-passing generator, and machine floats in [0,1] become
rationals.
-/

namespace NounMixer

/-! ## Character classes

`WORD_RX = (\s+|[A-Za-zĄĆĘŁŃÓŚŹŻąćęłńóśźż]+|[0-9]+|[^\s…0-9])` (app.py line 37)
splits a text into maximal runs of whitespace, of the explicit ASCII+Polish
letter class, of ASCII digits, and single other characters.  `is_word` however
uses Python `str.isalpha`, i.e. general Unicode alphabetic-ness. -/

/-- Python `\s` (Unicode whitespace) on a single character, covering the ASCII
whitespace characters and the Unicode space code points. -/
def pyIsSpace (c : Char) : Bool :=
  c.toNat = 0x20 ∨ (0x9 ≤ c.toNat ∧ c.toNat ≤ 0xD) ∨
  (0x1C ≤ c.toNat ∧ c.toNat ≤ 0x1F) ∨ c.toNat = 0x85 ∨ c.toNat = 0xA0 ∨
  c.toNat = 0x1680 ∨ (0x2000 ≤ c.toNat ∧ c.toNat ≤ 0x200A) ∨
  c.toNat = 0x2028 ∨ c.toNat = 0x2029 ∨ c.toNat = 0x202F ∨
  c.toNat = 0x205F ∨ c.toNat = 0x3000

/-- The eighteen Polish diacritic letters listed explicitly in `WORD_RX`. -/
def polishLetters : List Char :=
  ['Ą', 'Ć', 'Ę', 'Ł', 'Ń', 'Ó', 'Ś', 'Ź', 'Ż',
   'ą', 'ć', 'ę', 'ł', 'ń', 'ó', 'ś', 'ź', 'ż']

/-- The letter class of `WORD_RX`: ASCII letters plus the Polish diacritics. -/
def isRxLetter (c : Char) : Bool :=
  c.isAlpha ∨ c ∈ polishLetters

/-- Python `str.isalpha` on a single character (any Unicode letter), modelled
for the code points this development exercises: ASCII letters, the letters of
Latin-1 Supplement (which excludes × U+00D7 and ÷ U+00F7), and the Latin
Extended-A/B blocks (which contain every Polish diacritic). -/
def pyIsAlpha (c : Char) : Bool :=
  c.isAlpha ∨
  (0xC0 ≤ c.toNat ∧ c.toNat ≤ 0x24F ∧ c.toNat ≠ 0xD7 ∧ c.toNat ≠ 0xF7)

/-- Python `str.isspace` on a whole string: nonempty and all-whitespace. -/
def pyStrIsSpace (t : String) : Bool :=
  t ≠ "" ∧ t.data.all pyIsSpace

/-- Python `str.isalpha` on a whole string: nonempty and all-alphabetic. -/
def pyStrIsAlpha (t : String) : Bool :=
  t ≠ "" ∧ t.data.all pyIsAlpha

/-- `is_whitespace` (app.py lines 39-40): `bool(t) and t.isspace()`. -/
def is_whitespace (t : String) : Bool :=
  t ≠ "" ∧ pyStrIsSpace t

/-- `is_word` (app.py lines 42-43): `bool(t) and not t.isspace() and t.isalpha()`. -/
def is_word (t : String) : Bool :=
  t ≠ "" ∧ ¬ pyStrIsSpace t ∧ pyStrIsAlpha t

/-! ## Tokenizer

`WORD_RX.findall` scans the text left to right; at each position the
alternation consumes a maximal whitespace run, a maximal run from the letter
class, a maximal digit run, or a single other character.  The three run
classes and the residue class are pairwise disjoint, so the regex is exactly
maximal-run scanning. -/

/-- One regex alternative step: maximal run of whitespace, letters or digits
starting at the head, else the head character alone as an "other" token.
The first argument is recursion fuel, always instantiated with the length of
the list (a proper upper bound, since each step consumes at least one
character); structural recursion on the fuel keeps the function
kernel-reducible. -/
def tokenizeCharsGo : Nat → List Char → List (List Char)
  | _, [] => []
  | 0, _ :: _ => []
  | fuel + 1, c :: cs =>
    if pyIsSpace c then
      (c :: cs.takeWhile pyIsSpace) :: tokenizeCharsGo fuel (cs.dropWhile pyIsSpace)
    else if isRxLetter c then
      (c :: cs.takeWhile isRxLetter) :: tokenizeCharsGo fuel (cs.dropWhile isRxLetter)
    else if c.isDigit then
      (c :: cs.takeWhile Char.isDigit) :: tokenizeCharsGo fuel (cs.dropWhile Char.isDigit)
    else
      [c] :: tokenizeCharsGo fuel cs

/-- Maximal-run scanning of a character list, as performed by `WORD_RX`. -/
def tokenizeChars (l : List Char) : List (List Char) :=
  tokenizeCharsGo l.length l

/-- `WORD_RX.findall(text)` (app.py lines 37, 113, 152). -/
def tokenize (s : String) : List String :=
  (tokenizeChars s.data).map (fun cs => String.mk cs)

/-- Python `"".join(pieces)` (app.py line 182). -/
def pyJoin (l : List String) : String :=
  l.foldl (fun r s => r ++ s) ""

/-! ## Tag feature parser (`parse_tag`, app.py lines 68-84) -/

/-- The morphological feature record built by `parse_tag`: the Python dict
with keys pos / number / case / gender (`caseF` because `case` is reserved). -/
structure MorphFeats where
  pos : String
  number : Option String := none
  caseF : Option String := none
  gender : Option String := none
deriving DecidableEq, Repr

def numberVals : List String := ["sg", "pl"]

def caseVals : List String := ["nom", "gen", "dat", "acc", "inst", "loc", "voc"]

def genderVals : List String := ["m1", "m2", "m3", "f", "n"]

/-- Python `str.split(sep)` for a single separator character, on character
lists: splitting the empty string gives one empty field, and every separator
occurrence opens a new field. -/
def splitCharsOn (sep : Char) : List Char → List (List Char)
  | [] => [[]]
  | c :: cs =>
    let r := splitCharsOn sep cs
    if c = sep then [] :: r
    else (c :: r.headD []) :: r.tail

/-- Python `tag.split(":")` (app.py line 75). -/
def pySplitColon (s : String) : List String :=
  (splitCharsOn ':' s.data).map (fun cs => String.mk cs)

/-- One iteration of the `for p in parts[1:]` loop of `parse_tag`. -/
def updateFeat (f : MorphFeats) (p : String) : MorphFeats :=
  if p ∈ numberVals then { f with number := some p }
  else if p ∈ caseVals then { f with caseF := some p }
  else if p ∈ genderVals then { f with gender := some p }
  else f

/-- `parse_tag` (app.py lines 68-84): split on ":", first segment is the
part of speech, remaining segments update number/case/gender. -/
def parse_tag (tag : String) : MorphFeats :=
  let parts := pySplitColon tag
  (parts.drop 1).foldl updateFeat { pos := parts.headD "" }

/-! ## Morphological oracle and `analyze_token_word` (app.py lines 86-110)

`morf.analyse` returns a list of tuples `(start, end, info)`; the code skips
tuples with fewer than three components and reads `info` as
`(form, lemma, tag, ...)` where a field may be missing or `None`.  We model an
analysis entry as `Option (List (Option String))`: `none` is a short tuple,
`some info` the info tuple with possibly-`None` fields.  A raised Python
exception is `Except.error ()`. -/

structure Oracle where
  analyse : String → Except Unit (List (Option (List (Option String))))
  generate : String → String → Except Unit (List (List String))

/-- The test applied to one info tuple: the Python condition that the tag start with "subst" and the lemma be truthy
(a missing or `None` field reads as the falsy empty string). -/
def nounOfInfo (info : List (Option String)) : Option (String × String) :=
  let lemm := ((info[1]?).join).getD ""
  let tag := ((info[2]?).join).getD ""
  if "subst".data.isPrefixOf tag.data ∧ lemm ≠ "" then some (lemm, tag) else none

/-- The scan of the `for a in analyses` loop: first usable noun reading. -/
def firstNoun : List (Option (List (Option String))) → Option (String × String)
  | [] => none
  | a :: rest =>
    match a with
    | none => firstNoun rest
    | some info =>
      match nounOfInfo info with
      | some r => some r
      | none => firstNoun rest

/-- The 4-tuple (is_noun, lemma, tag, feats) returned by
`analyze_token_word`; the failure row is `(False, None, None, {})`. -/
structure NounAnalysis where
  isNoun : Bool
  lemm : Option String
  tag : Option String
  feats : Option MorphFeats
deriving DecidableEq, Repr

/-- `analyze_token_word` (app.py lines 86-110).  Note the `morf.analyse` call
is NOT wrapped in try/except: an oracle exception propagates. -/
def analyze_token_word (O : Oracle) (tok : String) : Except Unit NounAnalysis :=
  match O.analyse tok with
  | .error e => .error e
  | .ok analyses =>
    match firstNoun analyses with
    | some (lemm, tag) => .ok ⟨true, some lemm, some tag, some (parse_tag tag)⟩
    | none => .ok ⟨false, none, none, none⟩

/-! ## Donor lemma collector (`donor_lemmas`, app.py lines 112-121) -/

/-- The `for t in toks` loop of `donor_lemmas`. -/
def donor_lemmas_go (O : Oracle) : List String → Except Unit (List String)
  | [] => .ok []
  | t :: ts =>
    if ¬ is_word t then donor_lemmas_go O ts
    else
      match analyze_token_word O t with
      | .error e => .error e
      | .ok na =>
        match donor_lemmas_go O ts with
        | .error e => .error e
        | .ok rest =>
          if na.isNoun ∧ na.lemm.getD "" ≠ "" then .ok (na.lemm.getD "" :: rest)
          else .ok rest

/-- `donor_lemmas` (app.py lines 112-121): the noun lemmas of the donor text,
appended verbatim, in token order, duplicates retained. -/
def donor_lemmas (O : Oracle) (text : String) : Except Unit (List String) :=
  donor_lemmas_go O (tokenize text)

/-! ## Form generator (`generate_form`, app.py lines 123-134) -/

/-- `generate_form` (app.py lines 123-134): first surface form of
the oracle generate call; the lemma itself when there are no variants;
`str(v)` of an empty tuple is the literal "()". -/
def generate_form (O : Oracle) (lemm tag : String) : Except Unit String :=
  match O.generate lemm tag with
  | .error e => .error e
  | .ok [] => .ok lemm
  | .ok (v :: _) =>
    match v with
    | [] => .ok "()"
    | x :: _ => .ok x

/-! ## Casing matcher (`match_casing`, app.py lines 136-137) -/

/-- Uppercase test of Python for the letters this development uses
(ASCII and Polish diacritics). -/
def pyIsUpper (c : Char) : Bool :=
  c.isUpper ∨ c ∈ ['Ą', 'Ć', 'Ę', 'Ł', 'Ń', 'Ó', 'Ś', 'Ź', 'Ż']

/-- Lowercasing of Python for the letters this development uses. -/
def pyToLower (c : Char) : Char :=
  match c with
  | 'Ą' => 'ą' | 'Ć' => 'ć' | 'Ę' => 'ę' | 'Ł' => 'ł' | 'Ń' => 'ń'
  | 'Ó' => 'ó' | 'Ś' => 'ś' | 'Ź' => 'ź' | 'Ż' => 'ż'
  | _ => c.toLower

/-- Uppercasing of Python for the letters this development uses. -/
def pyToUpper (c : Char) : Char :=
  match c with
  | 'ą' => 'Ą' | 'ć' => 'Ć' | 'ę' => 'Ę' | 'ł' => 'Ł' | 'ń' => 'Ń'
  | 'ó' => 'Ó' | 'ś' => 'Ś' | 'ź' => 'Ź' | 'ż' => 'Ż'
  | _ => c.toUpper

/-- Python `str.capitalize`: first character uppercased, the rest lowercased. -/
def pyCapitalize (s : String) : String :=
  match s.data with
  | [] => ""
  | c :: cs => String.mk (pyToUpper c :: cs.map pyToLower)

/-- `match_casing` (app.py lines 136-137):
`dst.capitalize() if src[:1].isupper() else dst`. -/
def match_casing (src dst : String) : String :=
  match src.data with
  | [] => dst
  | c :: _ => if pyIsUpper c then pyCapitalize dst else dst

/-! ## Deterministic seeder (`stable_seed`, app.py lines 45-47) and the
seeded generator -/

/-- Stands in for `hashlib.md5(bytes).hexdigest()[:16]` read as a 64-bit
integer: a fixed deterministic function of the byte string.  The development
relies only on the seed being a pure function of the joined bytes, never on
MD5 bit patterns (the spec, §9, makes exactly this allowance). -/
def digest64 (bytes : List UInt8) : Nat :=
  bytes.foldl (fun h b => (h * 16777619 + b.toNat) % 2 ^ 64) 2166136261

/-- The UTF-8 bytes of a string, via the core character encoder (a structural
stand-in for `String.toUTF8`, which the kernel cannot reduce). -/
def utf8Bytes (s : String) : List UInt8 :=
  s.data.flatMap String.utf8EncodeChar

/-- Embeds `stable_seed` (app.py lines 45-47): the 64-bit digest prefix of the
parts joined with the unescaped separator "||", encoded as UTF-8. -/
def stable_seed (parts : List String) : Nat :=
  digest64 (utf8Bytes (String.intercalate "||" parts))

/-- Python `f"{x:.4f}"` for the nonnegative rationals the API admits:
round to four decimal places and print with exactly four fractional digits. -/
def fmt4 (q : ℚ) : String :=
  let n : ℤ := ⌊q * 10000 + 1 / 2⌋
  let fs := toString (n % 10000).toNat
  toString (n / 10000) ++ "." ++ String.mk (List.replicate (4 - fs.length) '0') ++ fs

/-- Stands in for the state step of `random.Random(seed)`: per §9 of the spec
any deterministic generator fulfils the contract; a 64-bit linear
congruential step. -/
def rngNext (s : Nat) : Nat :=
  (6364136223846793005 * s + 1442695040888963407) % 2 ^ 64

/-- `rng.random()`: one uniform draw in [0,1) plus the successor state. -/
def randFloat (s : Nat) : ℚ × Nat :=
  let s2 := rngNext s
  ((s2 : ℚ) / 2 ^ 64, s2)

/-- The index draw of `rng.choice(seq)` for a sequence of length `n`. -/
def randIndex (s : Nat) (n : Nat) : Nat × Nat :=
  let s2 := rngNext s
  (s2 % n, s2)

/-! ## The mix pipeline (`mix`, app.py lines 146-182) -/

/-- The guarded generation of app.py lines 176-179:
`try: new_form = generate_form(donor_lemma, tag_b) or donor_lemma
 except Exception: new_form = donor_lemma`.
Total by construction: generation failures never escape. -/
def subst_form (O : Oracle) (donorLemma tag : String) : String :=
  match generate_form O donorLemma tag with
  | .error _ => donorLemma
  | .ok f => if f = "" then donorLemma else f

/-- Prepend an emitted piece to the result of the rest of the loop. -/
def consPiece (piece : String) :
    Except Unit (List String × Nat) → Except Unit (List String × Nat)
  | .error e => .error e
  | .ok (rest, s) => .ok (piece :: rest, s)

/-- The `for t in tokens` loop of `mix` (app.py lines 163-180), with the
seeded generator passed as explicit state. -/
def mixLoop (O : Oracle) (donors : List String) (strength : ℚ) :
    List String → Nat → Except Unit (List String × Nat)
  | [], s => .ok ([], s)
  | t :: ts, s =>
    if ¬ is_word t then consPiece t (mixLoop O donors strength ts s)
    else
      match analyze_token_word O t with
      | .error e => .error e
      | .ok na =>
        if ¬ na.isNoun then consPiece t (mixLoop O donors strength ts s)
        else
          let rs := randFloat s
          if strength < rs.1 then consPiece t (mixLoop O donors strength ts rs.2)
          else
            let is2 := randIndex rs.2 donors.length
            consPiece
              (match_casing t (subst_form O (donors.getD is2.1 "") (na.tag.getD "")))
              (mixLoop O donors strength ts is2.2)

/-- `mix` (app.py lines 146-182).  Tokens and donors are computed first (the
donor collection may already raise), then the two early returns, then the
seeded left-to-right substitution loop, then `"".join`. -/
def mix (O : Oracle) (rtxt dtxt : String) (strength : ℚ) : Except Unit String :=
  let tokens := tokenize rtxt
  match donor_lemmas O dtxt with
  | .error e => .error e
  | .ok donors =>
    if tokens = [] then .ok ""
    else if donors = [] then .ok rtxt
    else
      match mixLoop O donors strength tokens (stable_seed [rtxt, dtxt, fmt4 strength]) with
      | .error e => .error e
      | .ok (out, _) => .ok (pyJoin out)

/-! ## Suffix cleaning and the Safe-mode policy variant

Both appear in the specification but not in src/app.py (the spec deduplicates
the source's near-duplicate variants; only the unrestricted variant is in
src/).  They are therefore modelled from the spec's words. -/

/-- Modelled from the spec: stripping of a "trailing disambiguation suffix"
from an oracle lemma or surface form (spec §4.2, §4.4, §4.7); no such
stripping routine exists in src/app.py.  Morfeusz marks homonyms with a
colon-separated suffix, so the clean value is the part before the colon:
"zamek:s1" cleans to "zamek". -/
def strip_suffix (s : String) : String :=
  (pySplitColon s).headD s

/-- Case folding used by the Safe-mode guards, for the letters this
development uses. -/
def pyLowerStr (s : String) : String :=
  String.mk (s.data.map pyToLower)

/-- Modelled from the spec: the "fixed stoplist of indefinite/interrogative
pronoun-like lemmas" of the Safe-mode variant (spec §4.6); absent from
src/app.py. -/
def NOUN_STOPLIST : List String :=
  ["kto", "co", "ktoś", "coś", "nikt", "nic", "wszystko", "to", "cokolwiek", "ktokolwiek"]

/-- Modelled from the spec: the Safe-mode "fixed set of prepositions that
typically govern a non-nominative complement" (spec §4.6); absent from
src/app.py. -/
def RISKY_PREPOSITIONS : List String :=
  ["do", "od", "dla", "bez", "u", "z", "ze", "przy", "po", "w", "we", "na",
   "o", "nad", "pod", "za", "przez", "ku", "przed", "między"]

/-- Modelled from the spec: the three additional Safe-mode guards (spec §4.6):
grammatical case nominative, case-folded lemma not stoplisted, case-folded
immediately preceding word token (if any) not a risky preposition. -/
def safe_guards (na : NounAnalysis) (prev : Option String) : Bool :=
  decide (na.feats.bind MorphFeats.caseF = some "nom") &&
  !(NOUN_STOPLIST.contains (pyLowerStr (na.lemm.getD ""))) &&
  (match prev with
   | none => true
   | some p => !(RISKY_PREPOSITIONS.contains (pyLowerStr p)))

/-- Modelled from the spec: the Safe-mode variant of the token loop
(spec §4.6); absent from src/app.py.  Identical to `mixLoop` except that it
tracks the most recent word token and that a noun failing any guard passes
through with no draw consumed. -/
def mixSafeLoop (O : Oracle) (donors : List String) (strength : ℚ) :
    List String → Option String → Nat → Except Unit (List String × Nat)
  | [], _, s => .ok ([], s)
  | t :: ts, prev, s =>
    if ¬ is_word t then consPiece t (mixSafeLoop O donors strength ts prev s)
    else
      match analyze_token_word O t with
      | .error e => .error e
      | .ok na =>
        if ¬ na.isNoun then consPiece t (mixSafeLoop O donors strength ts (some t) s)
        else if ¬ safe_guards na prev then
          consPiece t (mixSafeLoop O donors strength ts (some t) s)
        else
          let rs := randFloat s
          if strength < rs.1 then consPiece t (mixSafeLoop O donors strength ts (some t) rs.2)
          else
            let is2 := randIndex rs.2 donors.length
            consPiece
              (match_casing t (subst_form O (donors.getD is2.1 "") (na.tag.getD "")))
              (mixSafeLoop O donors strength ts (some t) is2.2)

/-- Modelled from the spec: `mix` under the Safe-mode policy variant
(spec §4.6); absent from src/app.py. -/
def mix_safe (O : Oracle) (rtxt dtxt : String) (strength : ℚ) : Except Unit String :=
  let tokens := tokenize rtxt
  match donor_lemmas O dtxt with
  | .error e => .error e
  | .ok donors =>
    if tokens = [] then .ok ""
    else if donors = [] then .ok rtxt
    else
      match mixSafeLoop O donors strength tokens none
          (stable_seed [rtxt, dtxt, fmt4 strength]) with
      | .error e => .error e
      | .ok (out, _) => .ok (pyJoin out)

/-! ## A first-match tag parser following the spec's words

Spec §4.3 says "the first match found for each category wins"; this is the
definition the source's `parse_tag` is compared against. -/

/-- The tag parser as the spec words it: for each category, the FIRST
remaining segment matching that category's value set. -/
def parse_tag_spec (tag : String) : MorphFeats :=
  let parts := pySplitColon tag
  let rest := parts.drop 1
  { pos := parts.headD ""
    number := rest.find? (fun p => numberVals.contains p)
    caseF := rest.find? (fun p => caseVals.contains p)
    gender := rest.find? (fun p => genderVals.contains p) }

/-! ## Concrete oracles used by witnesses and counterexamples -/

/-- An oracle that finds no reading for anything and generates nothing. -/
def oracleTrivial : Oracle where
  analyse := fun _ => .ok []
  generate := fun _ _ => .ok []

/-- An oracle whose analyse call raises on every token but "b": exercises the
missing try/except around `morf.analyse`. -/
def oracleAnalyseRaises : Oracle where
  analyse := fun t =>
    if t = "b" then .ok [some [some "b", some "burak", some "subst:sg:nom:m3"]]
    else .error ()
  generate := fun _ _ => .ok []

/-- An oracle that resolves every token to one fixed noun reading and whose
generate call always raises. -/
def oracleGenRaises : Oracle where
  analyse := fun _ => .ok [some [some "c", some "cytryna", some "subst:sg:nom:f"]]
  generate := fun _ _ => .error ()

/-- An oracle that returns a lemma and surface forms carrying a Morfeusz
homonym-disambiguation suffix. -/
def oracleSuffixed : Oracle where
  analyse := fun t =>
    if t = "a" then .ok [some [some "a", some "zamek:s1", some "subst:sg:nom:m3"]]
    else .ok []
  generate := fun _ _ => .ok [["kota:s1", "sg:nom"]]

/-- An oracle whose generation succeeds but yields the empty string as its
first surface form. -/
def oracleEmptyForm : Oracle where
  analyse := fun _ => .ok []
  generate := fun _ _ => .ok [[""]]

/-- An oracle giving the accented non-Polish letter é a noun reading. -/
def oracleAcute : Oracle where
  analyse := fun t =>
    if t = "é" then .ok [some [some "é", some "étos", some "subst:sg:nom:m3"]]
    else .ok []
  generate := fun lm tg =>
    if lm = "étos" ∧ tg = "subst:sg:nom:m3" then .ok [["ét"]] else .ok []

/-- An oracle resolving the stoplisted indefinite pronoun "coś" to a
nominative noun reading. -/
def oracleStoplisted : Oracle where
  analyse := fun t =>
    if t = "coś" then .ok [some [some "coś", some "coś", some "subst:sg:nom:n"]]
    else .ok []
  generate := fun _ _ => .ok []

/-! ## Helper lemmas -/

theorem tokenizeCharsGo_flatten :
    ∀ (fuel : Nat) (l : List Char), l.length ≤ fuel →
      (tokenizeCharsGo fuel l).flatten = l := by
  intro fuel
  induction fuel with
  | zero =>
    intro l h
    cases l with
    | nil => rfl
    | cons c cs => simp at h
  | succ fuel ih =>
    intro l h
    cases l with
    | nil => rfl
    | cons c cs =>
      have hcs : cs.length ≤ fuel := by
        simpa using Nat.le_of_succ_le_succ (by simpa using h)
      have hlen : ∀ p : Char → Bool, (cs.dropWhile p).length ≤ fuel :=
        fun p => le_trans (List.dropWhile_suffix p).length_le hcs
      simp only [tokenizeCharsGo]
      by_cases h1 : pyIsSpace c
      · simp only [if_pos h1, List.flatten_cons, List.cons_append,
          ih _ (hlen _), List.takeWhile_append_dropWhile]
      · by_cases h2 : isRxLetter c
        · simp only [if_neg h1, if_pos h2, List.flatten_cons, List.cons_append,
            ih _ (hlen _), List.takeWhile_append_dropWhile]
        · by_cases h3 : c.isDigit
          · simp only [if_neg h1, if_neg h2, if_pos h3, List.flatten_cons,
              List.cons_append, ih _ (hlen _), List.takeWhile_append_dropWhile]
          · simp only [if_neg h1, if_neg h2, if_neg h3, List.flatten_cons,
              ih _ hcs, List.singleton_append]

theorem tokenizeChars_flatten (l : List Char) : (tokenizeChars l).flatten = l :=
  tokenizeCharsGo_flatten l.length l le_rfl

theorem pyJoin_go (ls : List (List Char)) (acc : List Char) :
    List.foldl (fun r s => r ++ s) (String.mk acc) (ls.map (fun cs => String.mk cs)) =
      String.mk (acc ++ ls.flatten) := by
  induction ls generalizing acc with
  | nil => simp
  | cons a ls ih =>
    simp only [List.map_cons, List.foldl_cons, List.flatten_cons]
    have h : String.mk acc ++ String.mk a = String.mk (acc ++ a) := rfl
    rw [h, ih, List.append_assoc]

theorem pyJoin_map_mk (ls : List (List Char)) :
    pyJoin (ls.map (fun cs => String.mk cs)) = String.mk ls.flatten := by
  have h := pyJoin_go ls []
  simpa [pyJoin] using h

/-- C1 core: concatenating the tokens of any input reproduces the input. -/
theorem tokenize_roundtrip (s : String) : pyJoin (tokenize s) = s := by
  rw [tokenize, pyJoin_map_mk, tokenizeChars_flatten]

theorem updateFeat_pos (acc : MorphFeats) (p : String) :
    (updateFeat acc p).pos = acc.pos := by
  unfold updateFeat
  split
  · rfl
  · split
    · rfl
    · split <;> rfl

theorem updateFeat_number (acc : MorphFeats) (p : String) :
    (updateFeat acc p).number = if p ∈ numberVals then some p else acc.number := by
  unfold updateFeat
  by_cases h1 : p ∈ numberVals
  · simp [h1]
  · simp only [if_neg h1]
    split
    · rfl
    · split <;> rfl

theorem updateFeat_caseF (acc : MorphFeats) (p : String) :
    (updateFeat acc p).caseF = if p ∈ caseVals then some p else acc.caseF := by
  unfold updateFeat
  by_cases h1 : p ∈ numberVals
  · have h2 : p ∉ caseVals := by
      have hp : p = "sg" ∨ p = "pl" := by simpa [numberVals] using h1
      rcases hp with rfl | rfl <;> decide
    simp [h1, h2]
  · simp only [if_neg h1]
    by_cases h2 : p ∈ caseVals
    · simp [h2]
    · simp only [if_neg h2]
      split <;> rfl

theorem updateFeat_gender (acc : MorphFeats) (p : String) :
    (updateFeat acc p).gender = if p ∈ genderVals then some p else acc.gender := by
  unfold updateFeat
  by_cases h1 : p ∈ numberVals
  · have h2 : p ∉ genderVals := by
      have hp : p = "sg" ∨ p = "pl" := by simpa [numberVals] using h1
      rcases hp with rfl | rfl <;> decide
    simp [h1, h2]
  · simp only [if_neg h1]
    by_cases h2 : p ∈ caseVals
    · have h3 : p ∉ genderVals := by
        have hp := h2
        simp only [caseVals, List.mem_cons, List.not_mem_nil, or_false] at hp
        rcases hp with rfl | rfl | rfl | rfl | rfl | rfl | rfl <;> decide
      simp [h2, h3]
    · simp only [if_neg h2]
      split <;> rfl

theorem foldl_updateFeat_pos (l : List String) (acc : MorphFeats) :
    (l.foldl updateFeat acc).pos = acc.pos := by
  induction l generalizing acc with
  | nil => rfl
  | cons p l ih => rw [List.foldl_cons, ih, updateFeat_pos]

theorem singleton_find?_or (p : String) (vals : List String) (b : Option String) :
    (([p].find? (fun q => vals.contains q)).or b) =
      if p ∈ vals then some p else b := by
  simp only [List.find?]
  by_cases h : p ∈ vals
  · simp [List.elem_eq_true_of_mem h, h]
  · have hc : vals.contains p = false := by
      simpa using h
    simp [hc, h]

theorem foldl_updateFeat_number (l : List String) (acc : MorphFeats) :
    (l.foldl updateFeat acc).number =
      (l.reverse.find? (fun q => numberVals.contains q)).or acc.number := by
  induction l generalizing acc with
  | nil => simp
  | cons p l ih =>
    rw [List.foldl_cons, ih, List.reverse_cons, List.find?_append, Option.or_assoc,
      singleton_find?_or, updateFeat_number]

theorem foldl_updateFeat_caseF (l : List String) (acc : MorphFeats) :
    (l.foldl updateFeat acc).caseF =
      (l.reverse.find? (fun q => caseVals.contains q)).or acc.caseF := by
  induction l generalizing acc with
  | nil => simp
  | cons p l ih =>
    rw [List.foldl_cons, ih, List.reverse_cons, List.find?_append, Option.or_assoc,
      singleton_find?_or, updateFeat_caseF]

theorem foldl_updateFeat_gender (l : List String) (acc : MorphFeats) :
    (l.foldl updateFeat acc).gender =
      (l.reverse.find? (fun q => genderVals.contains q)).or acc.gender := by
  induction l generalizing acc with
  | nil => simp
  | cons p l ih =>
    rw [List.foldl_cons, ih, List.reverse_cons, List.find?_append, Option.or_assoc,
      singleton_find?_or, updateFeat_gender]

theorem analyze_token_word_ok (O : Oracle) (tok : String) (a : List (Option (List (Option String))))
    (ha : O.analyse tok = .ok a) :
    analyze_token_word O tok = .ok (match firstNoun a with
      | some (lm, tg) => ⟨true, some lm, some tg, some (parse_tag tg)⟩
      | none => ⟨false, none, none, none⟩) := by
  unfold analyze_token_word
  rw [ha]
  dsimp only
  cases h2 : firstNoun a with
  | none => rfl
  | some p =>
    obtain ⟨lm, tg⟩ := p
    rfl

theorem analyze_total (O : Oracle) (hana : ∀ t, ∃ a, O.analyse t = .ok a) (tok : String) :
    ∃ na, analyze_token_word O tok = .ok na := by
  obtain ⟨a, ha⟩ := hana tok
  exact ⟨_, analyze_token_word_ok O tok a ha⟩

theorem donor_go_total (O : Oracle) (hana : ∀ t, ∃ a, O.analyse t = .ok a) :
    ∀ ts : List String, ∃ pool, donor_lemmas_go O ts = .ok pool := by
  intro ts
  induction ts with
  | nil => exact ⟨[], rfl⟩
  | cons t ts ih =>
    obtain ⟨pool, hp⟩ := ih
    by_cases hw : is_word t = true
    · obtain ⟨na, hna⟩ := analyze_total O hana t
      by_cases hc : na.isNoun = true ∧ na.lemm.getD "" ≠ ""
      · exact ⟨na.lemm.getD "" :: pool, by
          simp only [donor_lemmas_go, if_neg (not_not_intro hw), hna, hp, if_pos hc]⟩
      · exact ⟨pool, by
          simp only [donor_lemmas_go, if_neg (not_not_intro hw), hna, hp, if_neg hc]⟩
    · exact ⟨pool, by simp only [donor_lemmas_go, if_pos hw, hp]⟩

theorem mixLoop_total (O : Oracle) (hana : ∀ t, ∃ a, O.analyse t = .ok a)
    (donors : List String) (strength : ℚ) :
    ∀ (ts : List String) (st : Nat), ∃ out s2,
      mixLoop O donors strength ts st = .ok (out, s2) := by
  intro ts
  induction ts with
  | nil => exact fun st => ⟨[], st, rfl⟩
  | cons t ts ih =>
    intro st
    by_cases hw : is_word t = true
    · obtain ⟨na, hna⟩ := analyze_total O hana t
      by_cases hn : na.isNoun = true
      · by_cases hr : strength < (randFloat st).1
        · obtain ⟨out, s2, h2⟩ := ih (randFloat st).2
          exact ⟨t :: out, s2, by
            simp only [mixLoop, if_neg (not_not_intro hw), hna,
              if_neg (not_not_intro hn), if_pos hr, h2, consPiece]⟩
        · obtain ⟨out, s2, h2⟩ := ih (randIndex (randFloat st).2 donors.length).2
          refine ⟨match_casing t (subst_form O
            (donors.getD (randIndex (randFloat st).2 donors.length).1 "")
            (na.tag.getD "")) :: out, s2, ?_⟩
          simp only [mixLoop, if_neg (not_not_intro hw), hna,
            if_neg (not_not_intro hn), if_neg hr, h2, consPiece]
      · obtain ⟨out, s2, h2⟩ := ih st
        exact ⟨t :: out, s2, by
          simp only [mixLoop, if_neg (not_not_intro hw), hna, if_pos hn, h2, consPiece]⟩
    · obtain ⟨out, s2, h2⟩ := ih st
      exact ⟨t :: out, s2, by simp only [mixLoop, if_pos hw, h2, consPiece]⟩

theorem mix_total (O : Oracle) (hana : ∀ t, ∃ a, O.analyse t = .ok a)
    (r d : String) (s : ℚ) : ∃ out, mix O r d s = .ok out := by
  obtain ⟨pool, hp⟩ := donor_go_total O hana (tokenize d)
  have hdl : donor_lemmas O d = .ok pool := hp
  by_cases ht : tokenize r = []
  · exact ⟨"", by simp only [mix, hdl, if_pos ht]⟩
  · by_cases hpe : pool = []
    · subst hpe
      exact ⟨r, by simp [mix, hdl, ht]⟩
    · obtain ⟨out, s2, hml⟩ :=
        mixLoop_total O hana pool s (tokenize r) (stable_seed [r, d, fmt4 s])
      exact ⟨pyJoin out, by simp only [mix, hdl, if_neg ht, if_neg hpe, hml]⟩

theorem donor_go_mem (O : Oracle) :
    ∀ (ts pool : List String), donor_lemmas_go O ts = .ok pool →
      ∀ l ∈ pool, ∃ t na, t ∈ ts ∧ is_word t = true ∧
        analyze_token_word O t = .ok na ∧ na.lemm = some l := by
  intro ts
  induction ts with
  | nil =>
    intro pool h l hl
    simp only [donor_lemmas_go] at h
    cases h
    simp at hl
  | cons t ts ih =>
    intro pool h l hl
    by_cases hw : is_word t = true
    · rw [donor_lemmas_go, if_neg (not_not_intro hw)] at h
      cases hna : analyze_token_word O t with
      | error e => rw [hna] at h; simp at h
      | ok na =>
        rw [hna] at h
        dsimp only at h
        cases hgo : donor_lemmas_go O ts with
        | error e => rw [hgo] at h; simp at h
        | ok rest =>
          rw [hgo] at h
          dsimp only at h
          by_cases hc : na.isNoun = true ∧ na.lemm.getD "" ≠ ""
          · rw [if_pos hc] at h
            cases h
            rcases List.mem_cons.mp hl with rfl | hl2
            · refine ⟨t, na, List.mem_cons_self t ts, hw, hna, ?_⟩
              cases hlem : na.lemm with
              | none => exact absurd (by rw [hlem]; rfl) hc.2
              | some x => rfl
            · obtain ⟨t2, na2, ht2, hw2, hna2, hl3⟩ := ih rest hgo l hl2
              exact ⟨t2, na2, List.mem_cons_of_mem t ht2, hw2, hna2, hl3⟩
          · rw [if_neg hc] at h
            cases h
            obtain ⟨t2, na2, ht2, hw2, hna2, hl3⟩ := ih pool hgo l hl
            exact ⟨t2, na2, List.mem_cons_of_mem t ht2, hw2, hna2, hl3⟩
    · rw [donor_lemmas_go, if_pos hw] at h
      obtain ⟨t2, na2, ht2, hw2, hna2, hl3⟩ := ih pool h l hl
      exact ⟨t2, na2, List.mem_cons_of_mem t ht2, hw2, hna2, hl3⟩

/-! ## Additional helper lemmas for the claim theorems -/

theorem mk_cons_ne_empty (c : Char) (cs : List Char) : String.mk (c :: cs) ≠ "" := by
  intro h
  have h2 := congrArg String.data h
  simp at h2

theorem str_eq_empty_of_data_nil (s : String) (h : s.data = []) : s = "" := by
  cases s with
  | mk d => rw [show d = [] from h]

theorem randFloat_lt_one (st : Nat) : ¬ ((1 : ℚ) < (randFloat st).1) := by
  have hlt : rngNext st < 2 ^ 64 := Nat.mod_lt _ (by norm_num)
  have h1 : (randFloat st).1 = ((rngNext st : ℚ)) / 2 ^ 64 := rfl
  rw [h1, not_lt, div_le_one (by norm_num : (0 : ℚ) < 2 ^ 64)]
  exact_mod_cast le_of_lt hlt

theorem pyCapitalize_ne_empty (s : String) (h : s ≠ "") : pyCapitalize s ≠ "" := by
  unfold pyCapitalize
  cases hd : s.data with
  | nil => exact absurd (str_eq_empty_of_data_nil s hd) h
  | cons c cs => exact mk_cons_ne_empty _ _

theorem match_casing_ne_empty (src dst : String) (h : dst ≠ "") :
    match_casing src dst ≠ "" := by
  unfold match_casing
  cases hd : src.data with
  | nil => exact h
  | cons c cs =>
    dsimp only
    by_cases hc : pyIsUpper c = true
    · rw [if_pos hc]
      exact pyCapitalize_ne_empty dst h
    · rw [if_neg hc]
      exact h

theorem mixLoop_single_strength_one (O : Oracle) (donors : List String)
    (t : String) (st : Nat) (na : NounAnalysis)
    (hw : is_word t = true) (hna : analyze_token_word O t = .ok na)
    (hn : na.isNoun = true) :
    mixLoop O donors 1 [t] st =
      .ok ([match_casing t (subst_form O
          (donors.getD ((randIndex (randFloat st).2 donors.length).1) "")
          (na.tag.getD ""))],
        (randIndex (randFloat st).2 donors.length).2) := by
  simp only [mixLoop, if_neg (not_not_intro hw), hna, if_neg (not_not_intro hn),
    if_neg (randFloat_lt_one st), consPiece]

/-! ## The claims -/

/-- C1: for every input text, concatenating, in order, the tokens produced by
the tokenizer reproduces the input text exactly (tokenizer round-trip
identity). -/
theorem tokenizer_roundtrip_identity (s : String) : pyJoin (tokenize s) = s :=
  tokenize_roundtrip s

/-- C2: `mix` is deterministic — two calls with identical (recipient, donor,
strength) arguments against the same oracle derive the same seed and return
the same result. -/
theorem mix_deterministic (O : Oracle) (r d r2 d2 : String) (s s2 : ℚ)
    (h1 : r = r2) (h2 : d = d2) (h3 : s = s2) :
    stable_seed [r, d, fmt4 s] = stable_seed [r2, d2, fmt4 s2] ∧
    mix O r d s = mix O r2 d2 s2 := by
  subst h1
  subst h2
  subst h3
  exact ⟨rfl, rfl⟩

theorem mix_deterministic_witness :
    stable_seed ["a", "b", fmt4 1] = stable_seed ["a", "b", fmt4 1] ∧
    mix oracleTrivial "a" "b" 1 = mix oracleTrivial "a" "b" 1 :=
  mix_deterministic oracleTrivial "a" "b" "a" "b" 1 1 rfl rfl rfl

/-- C3 counterexample: `mix` CAN raise with strength inside [0,1] — the
`morf.analyse` call has no try/except, so an oracle that raises during the
analysis of a recipient word token (here "a", while the donor "b" still
yields a non-empty pool) propagates its exception out of `mix`. -/
theorem mix_raises_on_analyse_exception :
    (0 : ℚ) ≤ 1 / 2 ∧ (1 / 2 : ℚ) ≤ 1 ∧
    mix oracleAnalyseRaises "a" "b" (1 / 2) = .error () := by
  refine ⟨by norm_num, by norm_num, rfl⟩

/-- C3 (amended): provided the oracle's analyse call never raises, `mix`
never raises for any (text, text, strength in [0,1]) triple; a word token for
which the analysis returns nothing usable is treated as a non-noun and merely
passed through. -/
theorem mix_total_of_analyse_total (O : Oracle)
    (hana : ∀ t, ∃ a, O.analyse t = .ok a) (r d : String) (s : ℚ)
    (_hs0 : 0 ≤ s) (_hs1 : s ≤ 1) :
    ∃ out, mix O r d s = .ok out :=
  mix_total O hana r d s

theorem mix_total_of_analyse_total_witness :
    ∃ out, mix oracleTrivial "a" "b" (1 / 2) = .ok out :=
  mix_total_of_analyse_total oracleTrivial (fun _ => ⟨[], rfl⟩) "a" "b" (1 / 2)
    (by norm_num) (by norm_num)

/-- C4: donor-empty identity — whenever collecting donor lemmas succeeds with
an empty pool, `mix` returns the recipient text unchanged, for every
recipient and strength. -/
theorem mix_donor_empty_identity (O : Oracle) (r d : String) (s : ℚ)
    (h : donor_lemmas O d = .ok []) : mix O r d s = .ok r := by
  by_cases ht : tokenize r = []
  · have h2 := tokenize_roundtrip r
    rw [ht] at h2
    have h3 : r = "" := by simpa [pyJoin] using h2.symm
    subst h3
    simp [mix, h, ht]
  · simp [mix, h, ht]

theorem mix_donor_empty_identity_witness :
    mix oracleTrivial "a" "" 0 = .ok "a" :=
  mix_donor_empty_identity oracleTrivial "a" "" 0 rfl

/-- C5 counterexample: on the tag "subst:sg:pl" the code's parser keeps the
LAST matching number segment ("pl"), while the claim's first-match rule
(embodied by `parse_tag_spec`) yields "sg". -/
theorem parse_tag_not_first_match :
    (parse_tag "subst:sg:pl").number = some "pl" ∧
    (parse_tag_spec "subst:sg:pl").number = some "sg" ∧
    parse_tag "subst:sg:pl" ≠ parse_tag_spec "subst:sg:pl" := by
  refine ⟨rfl, rfl, by decide⟩

/-- C5 (amended): for every tag string the parser sets the part of speech to
the first colon-separated segment and assigns, for each of the three
categories, the value of the LAST segment after the part-of-speech matching
that category's fixed value set; segments matching none are discarded
silently, and the parser never fails (it is a total function). -/
theorem parse_tag_last_match (tag : String) :
    (parse_tag tag).pos = (pySplitColon tag).headD "" ∧
    (parse_tag tag).number =
      ((pySplitColon tag).drop 1).reverse.find? (fun q => numberVals.contains q) ∧
    (parse_tag tag).caseF =
      ((pySplitColon tag).drop 1).reverse.find? (fun q => caseVals.contains q) ∧
    (parse_tag tag).gender =
      ((pySplitColon tag).drop 1).reverse.find? (fun q => genderVals.contains q) := by
  refine ⟨?_, ?_, ?_, ?_⟩
  · simpa [parse_tag] using
      foldl_updateFeat_pos ((pySplitColon tag).drop 1)
        { pos := (pySplitColon tag).headD "" }
  · simpa [parse_tag] using
      foldl_updateFeat_number ((pySplitColon tag).drop 1)
        { pos := (pySplitColon tag).headD "" }
  · simpa [parse_tag] using
      foldl_updateFeat_caseF ((pySplitColon tag).drop 1)
        { pos := (pySplitColon tag).headD "" }
  · simpa [parse_tag] using
      foldl_updateFeat_gender ((pySplitColon tag).drop 1)
        { pos := (pySplitColon tag).headD "" }

/-- C6 counterexample: the donor pool keeps the lemma "zamek:s1" with its
trailing disambiguation suffix, and the form generator returns the surface
form "kota:s1" with its suffix — neither value is suffix-cleaned. -/
theorem donor_pool_not_suffix_cleaned :
    donor_lemmas oracleSuffixed "a" = .ok ["zamek:s1"] ∧
    strip_suffix "zamek:s1" = "zamek" ∧ ("zamek" : String) ≠ "zamek:s1" ∧
    generate_form oracleSuffixed "x" "t" = .ok "kota:s1" ∧
    strip_suffix "kota:s1" = "kota" ∧ ("kota" : String) ≠ "kota:s1" := by
  refine ⟨rfl, rfl, by decide, rfl, rfl, by decide⟩

/-- C6 (amended): every lemma appended to the donor pool is exactly (verbatim,
with no suffix stripping) the lemma of the noun analysis of some word token of
the donor text, and the form generator returns the first surface form exactly
as the oracle produced it. -/
theorem donor_pool_and_forms_verbatim (O : Oracle) (d : String)
    (pool : List String) (h : donor_lemmas O d = .ok pool) :
    (∀ l ∈ pool, ∃ t na, t ∈ tokenize d ∧ is_word t = true ∧
        analyze_token_word O t = .ok na ∧ na.lemm = some l) ∧
    (∀ lm tg x rest vs, O.generate lm tg = .ok ((x :: rest) :: vs) →
        generate_form O lm tg = .ok x) := by
  constructor
  · exact donor_go_mem O (tokenize d) pool h
  · intro lm tg x rest vs hg
    rw [generate_form, hg]

theorem donor_pool_and_forms_verbatim_witness :
    (∀ l ∈ ["zamek:s1"], ∃ t na, t ∈ tokenize "a" ∧ is_word t = true ∧
        analyze_token_word oracleSuffixed t = .ok na ∧ na.lemm = some l) ∧
    (∀ lm tg x rest vs, oracleSuffixed.generate lm tg = .ok ((x :: rest) :: vs) →
        generate_form oracleSuffixed lm tg = .ok x) :=
  donor_pool_and_forms_verbatim oracleSuffixed "a" ["zamek:s1"] rfl

/-- C7: when the oracle's generate call raises or returns no forms, the
substitution uses the donor lemma itself unmodified, and (provided analysis
itself does not raise) no error propagates to the caller of `mix` — the
generation call is the one wrapped in try/except. -/
theorem generate_failure_fallback (O : Oracle) (lm tg : String)
    (hgen : O.generate lm tg = .error () ∨ O.generate lm tg = .ok [])
    (hana : ∀ t, ∃ a, O.analyse t = .ok a) :
    subst_form O lm tg = lm ∧ ∀ r d s, ∃ out, mix O r d s = .ok out := by
  constructor
  · rcases hgen with hg | hg
    · have hgf : generate_form O lm tg = .error () := by rw [generate_form, hg]
      simp [subst_form, hgf]
    · have hgf : generate_form O lm tg = .ok lm := by rw [generate_form, hg]
      simp only [subst_form, hgf]
      split <;> rfl
  · exact fun r d s => mix_total O hana r d s

theorem generate_failure_fallback_witness :
    subst_form oracleGenRaises "cytryna" "subst:sg:nom:f" = "cytryna" ∧
    ∀ r d s, ∃ out, mix oracleGenRaises r d s = .ok out :=
  generate_failure_fallback oracleGenRaises "cytryna" "subst:sg:nom:f"
    (Or.inl rfl) (fun _ => ⟨_, rfl⟩)

/-- C8 (Safe-mode is modelled from the spec; it is absent from src/): a noun
token failing any Safe-mode guard is passed through unchanged with the
generator state untouched (no draw consumed), and a failing guard means at
least one of the three conditions — nominative case, lemma not stoplisted,
preceding word token not a risky preposition — is violated. -/
theorem safe_mode_guard_passthrough (O : Oracle) (donors : List String)
    (strength : ℚ) (prev : Option String) (t : String) (ts : List String)
    (st : Nat) (na : NounAnalysis)
    (hw : is_word t = true) (hna : analyze_token_word O t = .ok na)
    (hn : na.isNoun = true) (hg : safe_guards na prev = false) :
    mixSafeLoop O donors strength (t :: ts) prev st =
      consPiece t (mixSafeLoop O donors strength ts (some t) st) ∧
    ¬ (na.feats.bind MorphFeats.caseF = some "nom" ∧
       NOUN_STOPLIST.contains (pyLowerStr (na.lemm.getD "")) = false ∧
       ∀ p, prev = some p → RISKY_PREPOSITIONS.contains (pyLowerStr p) = false) := by
  constructor
  · simp only [mixSafeLoop, if_neg (not_not_intro hw), hna,
      if_neg (not_not_intro hn), if_pos (by simp [hg] : ¬ safe_guards na prev = true)]
  · rintro ⟨hnom, hstop, hprev⟩
    unfold safe_guards at hg
    simp only [hnom, hstop] at hg
    cases prev with
    | none => simp at hg
    | some p =>
      simp [hprev p rfl] at hg
      exact absurd hg (by simpa using hprev p rfl)

theorem safe_mode_guard_passthrough_witness :
    mixSafeLoop oracleStoplisted ["pies"] 1 ["coś"] none 0 =
      consPiece "coś" (mixSafeLoop oracleStoplisted ["pies"] 1 [] (some "coś") 0) ∧
    ¬ ((some (parse_tag "subst:sg:nom:n")).bind MorphFeats.caseF = some "nom" ∧
       NOUN_STOPLIST.contains (pyLowerStr ((some "coś").getD "")) = false ∧
       ∀ p, (none : Option String) = some p →
         RISKY_PREPOSITIONS.contains (pyLowerStr p) = false) :=
  safe_mode_guard_passthrough oracleStoplisted ["pies"] 1 none "coś" [] 0
    ⟨true, some "coś", some "subst:sg:nom:n", some (parse_tag "subst:sg:nom:n")⟩
    (by decide) rfl rfl (by decide)

/-- C9: if generation succeeds but its first surface form is the empty
(falsy) string, the substitution falls back to the donor lemma; consequently
the emitted replacement piece (after casing) is non-empty whenever the chosen
donor lemma is non-empty. -/
theorem empty_form_fallback (O : Oracle) (lm tg tok : String) (hne : lm ≠ "") :
    (generate_form O lm tg = .ok "" → subst_form O lm tg = lm) ∧
    subst_form O lm tg ≠ "" ∧ match_casing tok (subst_form O lm tg) ≠ "" := by
  have hne2 : subst_form O lm tg ≠ "" := by
    rw [subst_form]
    cases hgf : generate_form O lm tg with
    | error e => exact hne
    | ok f =>
      by_cases hf : f = ""
      · simpa [hf] using hne
      · simp [hf]
  exact ⟨fun hgf => by simp [subst_form, hgf], hne2,
    match_casing_ne_empty tok _ hne2⟩

theorem empty_form_fallback_witness :
    (generate_form oracleEmptyForm "kot" "tg" = .ok "" →
      subst_form oracleEmptyForm "kot" "tg" = "kot") ∧
    subst_form oracleEmptyForm "kot" "tg" ≠ "" ∧
    match_casing "Ala" (subst_form oracleEmptyForm "kot" "tg") ≠ "" :=
  empty_form_fallback oracleEmptyForm "kot" "tg" "Ala" (by decide)

set_option maxRecDepth 4096 in
/-- C10: the single alphabetic character é sits outside the tokenizer's
ASCII+Polish letter class, so the tokenizer emits it as its own
single-character "other" token; yet `is_word` (Python `isalpha`) classifies
it as a word token, so it is analyzed and substituted like any word token —
here, with strength 1, `mix` replaces it by a donor-generated form. -/
theorem acute_letter_word_token :
    tokenize "wéx" = ["w", "é", "x"] ∧ isRxLetter 'é' = false ∧
    pyIsAlpha 'é' = true ∧ is_word "é" = true ∧
    mix oracleAcute "é" "é" 1 = .ok "ét" := by
  refine ⟨by decide, by decide, by decide, by decide, ?_⟩
  have hdl : donor_lemmas oracleAcute "é" = .ok ["étos"] := rfl
  have htok : tokenize "é" = ["é"] := rfl
  have hna : analyze_token_word oracleAcute "é" =
      .ok ⟨true, some "étos", some "subst:sg:nom:m3",
        some (parse_tag "subst:sg:nom:m3")⟩ := rfl
  simp only [mix, hdl, htok]
  rw [if_neg (by decide : ¬ (["é"] : List String) = []),
    if_neg (by decide : ¬ (["étos"] : List String) = []),
    mixLoop_single_strength_one oracleAcute ["étos"] "é" _ _ (by decide) hna rfl]
  simp only [randIndex, List.length_cons, List.length_nil, Nat.zero_add, Nat.mod_one]
  rfl

end NounMixer



